import Mathlib

/-!
Verification development for an iCalendar lexer/parser (a Go package).

The Go source is shallowly embedded: the lexer is a character-level state
machine producing a token list, the parser a recursive-descent consumer of
that list.  Strings are modelled at the character level (`List Char`),
which coincides with Go's byte-level handling on the ASCII inputs the
grammar deals in; machine integers carry no overflow concerns here
(positions are list indices).  Go panics (out-of-range slice, nil-pointer
dereference) are modelled as explicit `panicked` outcomes, and the
busy-loop the lexer can enter at end of input inside a parameter value is
modelled as an explicit `diverged` outcome.
-/

namespace ICal

/-- Token kinds, mirroring the Go `itemType` iota block; `idx` below
recovers the iota numbering the source compares against. -/
inductive itemType where
  | itemError
  | itemEOF
  | itemLineEnd
  | itemComponent
  | itemParamName
  | itemParamValue
  | itemValue
  | itemColon
  | itemSemiColon
  | itemEqual
  | itemComma
  | itemKeyword
  | itemBeginVCalendar
  | itemEndVCalendar
  | itemBeginVEvent
  | itemEndVEvent
  | itemBeginVAlarm
  | itemEndVAlarm
deriving DecidableEq, Repr

/-- Numeric value of a token kind: the Go constants are consecutive iota
values and the source orders them with `>` (e.g. `i.typ > itemKeyword`). -/
def itemType.idx : itemType → Nat
  | .itemError => 0
  | .itemEOF => 1
  | .itemLineEnd => 2
  | .itemComponent => 3
  | .itemParamName => 4
  | .itemParamValue => 5
  | .itemValue => 6
  | .itemColon => 7
  | .itemSemiColon => 8
  | .itemEqual => 9
  | .itemComma => 10
  | .itemKeyword => 11
  | .itemBeginVCalendar => 12
  | .itemEndVCalendar => 13
  | .itemBeginVEvent => 14
  | .itemEndVEvent => 15
  | .itemBeginVAlarm => 16
  | .itemEndVAlarm => 17

/-- Token: kind, starting position (bytes in Go, characters here) and
literal text, mirroring the Go `item` struct. -/
structure item where
  typ : itemType
  pos : Nat
  val : String
deriving DecidableEq, Repr

/-- Zero value of `item`: what a receive on the lexer's closed channel
yields (`itemType` zero value is `itemError`). -/
def zeroItem : item := ⟨.itemError, 0, ""⟩

/-- Check whether the item is an ical component (Go `isItemComponent`). -/
def isItemComponent (i : item) : Bool :=
  i.typ = .itemComponent

/-- Go `unicode.IsControl` restricted to the code points reachable here:
C0 controls, DEL and C1 controls carry the control property. -/
def isControlGo (c : Char) : Bool :=
  c.val < 0x20 || c.val == 0x7f || (0x80 ≤ c.val && c.val ≤ 0x9f)

/-- Go `isName` lifted to `Option Char`; `none` stands for the lexer's
`eof` rune, on which `unicode.IsLetter`/`IsDigit` are false.  Letters and
digits are modelled in the ASCII range the grammar uses. -/
def isName : Option Char → Bool
  | none => false
  | some c => c.isAlpha || c.isDigit || c == '-'

/-- Go `isQSafeChar`: note `unicode.IsControl` is false on the `eof` rune
(-1), so the quoted-value scan does not stop at end of input. -/
def isQSafeChar : Option Char → Bool
  | none => true
  | some c => !isControlGo c && c != '"'

/-- Go `isSafeChar`: like `isQSafeChar`, also true on the `eof` rune. -/
def isSafeChar : Option Char → Bool
  | none => true
  | some c => !isControlGo c && c != '"' && c != ';' && c != ':' && c != ','

/-- Go `isValueChar`: `utf8.ValidRune(-1)` is false, so this is false on
the `eof` rune and the value scan stops at end of input. -/
def isValueChar : Option Char → Bool
  | none => false
  | some c => c == '\t' || !isControlGo c

/-- Fixed structural literals from the source. -/
def beginVCalendar : String := "BEGIN:VCALENDAR"

def endVCalendar : String := "END:VCALENDAR"

def beginVEvent : String := "BEGIN:VEVENT"

def endVEvent : String := "END:VEVENT"

def beginVAlarm : String := "BEGIN:VALARM"

def endVAlarm : String := "END:VALARM"

def crlf : String := "\r\n"

/-- Lexer state: the scanned input, the `start`/`pos` cursor pair, the
width of the last rune read and the tokens sent on the channel so far. -/
structure LexState where
  input : List Char
  start : Nat
  pos : Nat
  width : Nat
  toks : List item
deriving Repr

/-- How a lexer run ends: normal halt (state function returned nil),
runtime panic from an out-of-range slice, the endless scan loop reachable
at end of input inside a parameter value, or fuel exhaustion (never hit
by the concrete runs below). -/
inductive LexTerm where
  | halted
  | panicked
  | diverged
  | fuelOut
deriving DecidableEq, Repr

/-- Rune at the cursor: `none` models the `eof` sentinel of Go `next`. -/
def LexState.cur (st : LexState) : Option Char :=
  st.input.get? st.pos

/-- Go `next`: advance one rune, recording its width (0 at eof). -/
def LexState.nextRune (st : LexState) : Option Char × LexState :=
  match st.input.get? st.pos with
  | none => (none, { st with width := 0 })
  | some c => (some c, { st with width := 1, pos := st.pos + 1 })

/-- Go `emit`: send `input[start:pos]` with the given kind.  The slice
expression panics when `pos` runs past the end of the input, which the
error path of `lexNewLine` can make happen; `none` models that panic. -/
def LexState.emit (st : LexState) (t : itemType) : Option LexState :=
  if st.pos ≤ st.input.length then
    some { st with
      toks := st.toks ++ [⟨t, st.start, String.mk ((st.input.drop st.start).take (st.pos - st.start))⟩],
      start := st.pos }
  else none

/-- Go `ignore`: drop the input before the cursor. -/
def LexState.ignoreTo (st : LexState) : LexState :=
  { st with start := st.pos }

/-- Go `errorf`: send an error token carrying the message at `start`.
Unlike `emit` this slices nothing, so it cannot panic. -/
def LexState.errorTok (st : LexState) (msg : String) : LexState :=
  { st with toks := st.toks ++ [⟨.itemError, st.start, msg⟩] }

/-- Length of the maximal run of characters satisfying `p`; the Go scan
loops (`for { if !p(l.next()) { l.backup(); ...; break } }`) consume
exactly such a run before backing up over the first failing rune. -/
def runLen (p : Char → Bool) : List Char → Nat
  | [] => 0
  | c :: rest => if p c then runLen p rest + 1 else 0

/-- Lexer state functions, one constructor per Go `stateFn`. -/
inductive LexFn where
  | component
  | newLine
  | contentLine
  | paramName
  | paramValue
  | value
deriving DecidableEq, Repr

/-- Result of running one state function: the next state function to
enter, or a terminal outcome. -/
inductive LexOut where
  | step : LexFn → LexState → LexOut
  | stop : LexTerm → LexState → LexOut

/-- Test whether the remaining input starts with a literal
(Go `strings.HasPrefix(l.input[l.pos:], lit)`). -/
def LexState.startsWith (st : LexState) (lit : String) : Bool :=
  lit.data.isPrefixOf (st.input.drop st.pos)

/-- Consume a fixed literal and emit its structural token (the body of
each delimiter branch of `lexComponent`); the literal was just matched,
so the slice `input[start:pos]` is in range. -/
def LexState.emitLit (st : LexState) (lit : String) (t : itemType) : LexState :=
  let stop := st.pos + lit.data.length
  { st with
    pos := stop,
    toks := st.toks ++ [⟨t, st.start, String.mk ((st.input.drop st.start).take (stop - st.start))⟩],
    start := stop }

/-- Go `lexComponent`: match one of the six structural literals, else scan
a maximal name run and emit it as a component token. -/
def lexComponent (st : LexState) : LexOut :=
  if st.startsWith beginVCalendar then .step .newLine (st.emitLit beginVCalendar .itemBeginVCalendar)
  else if st.startsWith endVCalendar then .step .newLine (st.emitLit endVCalendar .itemEndVCalendar)
  else if st.startsWith beginVEvent then .step .newLine (st.emitLit beginVEvent .itemBeginVEvent)
  else if st.startsWith endVEvent then .step .newLine (st.emitLit endVEvent .itemEndVEvent)
  else if st.startsWith beginVAlarm then .step .newLine (st.emitLit beginVAlarm .itemBeginVAlarm)
  else if st.startsWith endVAlarm then .step .newLine (st.emitLit endVAlarm .itemEndVAlarm)
  else
    let n := runLen (fun c => isName (some c)) (st.input.drop st.pos)
    let st := { st with pos := st.pos + n }
    match st.emit .itemComponent with
    | some st' => .step .contentLine st'
    | none => .stop .panicked st

/-- Go `lexNewLine`.  The source discards the `stateFn` returned by
`errorf` here, so on a missing CRLF it still advances the position by two
and emits a line-end token: with fewer than two characters left the
`emit` slice is out of range (panic), otherwise scanning continues after
the error token. -/
def lexNewLine (st : LexState) : LexOut :=
  match st.cur with
  | none => .stop .halted st
  | some _ =>
    let st := if st.startsWith crlf then st else st.errorTok "unable to find end of line \"CRLF\""
    let st := { st with pos := st.pos + crlf.data.length }
    match st.emit .itemLineEnd with
    | none => .stop .panicked st
    | some st =>
      match st.nextRune with
      | (none, st) =>
        match st.emit .itemEOF with
        | some st' => .stop .halted st'
        | none => .stop .panicked st
      | (some _, st) => .step .component { st with pos := st.pos - st.width }

/-- Render a hexadecimal digit, uppercase, for the `%#U` format verb. -/
def hexDigit (n : Nat) : Char :=
  if n < 10 then Char.ofNat (48 + n) else Char.ofNat (55 + n)

/-- Render a natural in uppercase hexadecimal (no padding). -/
def hexDigits (fuel n : Nat) : List Char :=
  match fuel with
  | 0 => []
  | fuel + 1 => if n < 16 then [hexDigit n] else hexDigits fuel (n / 16) ++ [hexDigit (n % 16)]

/-- Go `fmt.Sprintf("%#U", r)`: `U+` then at least four uppercase hex
digits, and for printable runes a space and the quoted character.  The
printable test is modelled on the ASCII range; the `eof` rune prints as
the two's-complement pattern of -1. -/
def fmtUnicode : Option Char → String
  | none => "U+FFFFFFFFFFFFFFFF"
  | some c =>
    let ds := hexDigits 8 c.toNat
    let ds := List.replicate (4 - ds.length) '0' ++ ds
    let printable := 0x20 ≤ c.toNat && c.toNat ≤ 0x7e
    String.mk ('U' :: '+' :: ds) ++ (if printable then String.mk [' ', '\'', c, '\''] else "")

/-- Go `lexContentLine`: dispatch on the single punctuation rune. -/
def lexContentLine (st : LexState) : LexOut :=
  match st.nextRune with
  | (some ';', st) =>
    match st.emit .itemSemiColon with
    | some st' => .step .paramName st'
    | none => .stop .panicked st
  | (some ':', st) =>
    match st.emit .itemColon with
    | some st' => .step .value st'
    | none => .stop .panicked st
  | (some ',', st) =>
    match st.emit .itemComma with
    | some st' => .step .paramValue st'
    | none => .stop .panicked st
  | (r, st) => .stop .halted (st.errorTok ("unrecognized character in action: " ++ fmtUnicode r))

/-- Go `lexParamName`: scan a name run, then require an equals sign. -/
def lexParamName (st : LexState) : LexOut :=
  let n := runLen (fun c => isName (some c)) (st.input.drop st.pos)
  let st := { st with pos := st.pos + n }
  match st.emit .itemParamName with
  | none => .stop .panicked st
  | some st =>
    match st.nextRune with
    | (some '=', st) =>
      match st.emit .itemEqual with
      | some st' => .step .paramValue st'
      | none => .stop .panicked st
    | (r, st) => .stop .halted (st.errorTok ("missing \"=\" after parameter name, got " ++ fmtUnicode r))

/-- Go `lexParamValue`.  Both scan loops use predicates that are true on
the `eof` rune, so reaching the end of the input inside a parameter value
loops forever (`diverged`).  In the quoted branch the source again
discards the `stateFn` returned by `errorf`, so a missing closing quote
emits an error token and then continues with `lexContentLine`. -/
def lexParamValue (st : LexState) : LexOut :=
  match st.nextRune with
  | (some '"', st) =>
    let st := st.ignoreTo
    let n := runLen (fun c => isQSafeChar (some c)) (st.input.drop st.pos)
    if st.pos + n = st.input.length then .stop .diverged st
    else
      let st := { st with pos := st.pos + n }
      match st.emit .itemParamValue with
      | none => .stop .panicked st
      | some st =>
        match st.nextRune with
        | (some '"', st) => .step .contentLine st.ignoreTo
        | (_, st) => .step .contentLine (st.errorTok "missing closing \" for parameter value")
  | (_, st) =>
    let st := { st with pos := st.pos - st.width }
    let n := runLen (fun c => isSafeChar (some c)) (st.input.drop st.pos)
    if st.pos + n = st.input.length then .stop .diverged st
    else
      let st := { st with pos := st.pos + n }
      match st.emit .itemParamValue with
      | none => .stop .panicked st
      | some st' => .step .contentLine st'

/-- Go `lexValue`: scan a maximal run of value characters. -/
def lexValue (st : LexState) : LexOut :=
  let n := runLen (fun c => isValueChar (some c)) (st.input.drop st.pos)
  let st := { st with pos := st.pos + n }
  match st.emit .itemValue with
  | some st' => .step .newLine st'
  | none => .stop .panicked st

/-- Dispatch one state function. -/
def lexStep : LexFn → LexState → LexOut
  | .component, st => lexComponent st
  | .newLine, st => lexNewLine st
  | .contentLine, st => lexContentLine st
  | .paramName, st => lexParamName st
  | .paramValue, st => lexParamValue st
  | .value, st => lexValue st

/-- Go `run`: iterate state functions until one returns nil.  Fuel only
bounds the iteration for totality; `2 * input length + 8` always
suffices because every two consecutive state functions that do not
terminate the machine consume at least one character. -/
def lexRun : Nat → LexFn → LexState → List item × LexTerm
  | 0, _, st => (st.toks, .fuelOut)
  | fuel + 1, fn, st =>
    match lexStep fn st with
    | .step fn' st' => lexRun fuel fn' st'
    | .stop t st' => (st'.toks, t)

/-- Go `lex`: the full token sequence the lexer produces for an input,
together with how the scanning goroutine ends. -/
def lexString (s : String) : List item × LexTerm :=
  lexRun (2 * s.data.length + 8) .component ⟨s.data, 0, 0, 0, []⟩

/-- Parameter: ordered value list (Go `Param`). -/
structure Param where
  Values : List String
deriving DecidableEq, Repr

/-- Property: name, scalar value and parameter map (Go `Property`).  The
Go `map[string]*Param` is modelled as an association list with
overwrite-on-insert and unique keys. -/
structure Property where
  Name : String
  Value : String
  Params : List (String × Param)
deriving DecidableEq, Repr

/-- Map update, last write wins, as Go `m[k] = v`. -/
def mapInsert (m : List (String × Param)) (k : String) (v : Param) : List (String × Param) :=
  if m.any (fun kv => kv.1 = k) then m.map (fun kv => if kv.1 = k then (k, v) else kv)
  else m ++ [(k, v)]

/-- Map lookup, as the Go comma-ok form `m[k]`. -/
def mapGet (m : List (String × Param)) (k : String) : Option Param :=
  (m.find? (fun kv => kv.1 = k)).map (·.2)

/-- A Go `time.Location`, modelled as a fixed UTC offset in seconds.
Real named zones carry DST rules; calendar lookups beyond this are
external to the package (`time.LoadLocation` reads the host database). -/
structure Location where
  offset : Int
deriving DecidableEq, Repr

/-- The UTC location. -/
def utcLoc : Location := ⟨0⟩

/-- Go `time.Time` values are modelled by their instant, in seconds since
the Unix epoch.  The zero `time.Time` is 0001-01-01T00:00:00 UTC. -/
def goZeroTime : Int := -62135596800

/-- Alarm: Go `Alarm`. -/
structure Alarm where
  Action : String
  Trigger : String
  Properties : List Property
deriving DecidableEq, Repr

/-- Event: Go `Event` with `time.Time` fields as instants. -/
structure Event where
  UID : String
  Timestamp : Int
  StartDate : Int
  EndDate : Int
  Summary : String
  Description : String
  Properties : List Property
  Alarms : List Alarm
deriving DecidableEq, Repr

/-- Calendar: Go `Calendar`. -/
structure Calendar where
  Prodid : String
  Version : String
  Calscale : String
  Method : String
  Properties : List Property
  Events : List Event
deriving DecidableEq, Repr

/-- Go `NewCalendar`: empty calendar with the Gregorian default scale. -/
def NewCalendar : Calendar :=
  { Prodid := "", Version := "", Calscale := "GREGORIAN", Method := "",
    Properties := [], Events := [] }

/-- Go `NewProperty`: empty property with an empty parameter map. -/
def NewProperty : Property :=
  { Name := "", Value := "", Params := [] }

/-- Go `NewEvent`: zero-valued event (times are the zero `time.Time`). -/
def NewEvent : Event :=
  { UID := "", Timestamp := goZeroTime, StartDate := goZeroTime, EndDate := goZeroTime,
    Summary := "", Description := "", Properties := [], Alarms := [] }

/-- Go `NewAlarm`: empty alarm. -/
def NewAlarm : Alarm :=
  { Action := "", Trigger := "", Properties := [] }

/-- Go `NewParam`: empty parameter. -/
def NewParam : Param := ⟨[]⟩

/-- Go `unfold` (content of `strings.Replace(text, "\r\n ", "", -1)`):
remove every left-to-right non-overlapping occurrence of CRLF-space. -/
def unfoldChars : List Char → List Char
  | '\r' :: '\n' :: ' ' :: rest => unfoldChars rest
  | c :: rest => c :: unfoldChars rest
  | [] => []

/-- Go `unfold`: converts folded multi-line values into a single line. -/
def unfold (text : String) : String :=
  String.mk (unfoldChars text.data)

/-- Decimal value of a digit character, `none` for non-digits. -/
def digitVal (c : Char) : Option Nat :=
  if c.isDigit then some (c.toNat - 48) else none

/-- Value of a fixed-width digit run, as the numeric fields of a Go time
layout read it; `none` when any character is not a digit. -/
def digitsVal (cs : List Char) : Option Nat :=
  cs.foldl (fun acc c => match acc, digitVal c with
    | some n, some d => some (10 * n + d)
    | _, _ => none) (some 0)

/-- Gregorian leap-year rule, as Go `time.isLeap`. -/
def isLeap (y : Nat) : Bool :=
  y % 4 == 0 && (y % 100 != 0 || y % 400 == 0)

/-- Days in a month, as Go `time.daysIn`. -/
def daysInMonth (y m : Nat) : Nat :=
  if m = 2 then (if isLeap y then 29 else 28)
  else if m = 4 ∨ m = 6 ∨ m = 9 ∨ m = 11 then 30
  else 31

/-- Days from the Unix epoch to a civil date (proleptic Gregorian); this
is the standard civil-from-days arithmetic the Go time package's
date-to-absolute conversion computes.  All divisions here act on
non-negative operands for the years a four-digit field can carry. -/
def daysFromCivil (y m d : Int) : Int :=
  let yy := if m ≤ 2 then y - 1 else y
  let era := (if 0 ≤ yy then yy else yy - 399) / 400
  let yoe := yy - era * 400
  let doy := (153 * (if 2 < m then m - 3 else m + 9) + 2) / 5 + d - 1
  let doe := yoe * 365 + yoe / 4 - yoe / 100 + doy
  era * 146097 + doe - 719468

/-- Read `YYYYMMDD` with the range checks Go `time.Parse` applies to the
`20060102` layout: months 1..12, days bounded by the month length. -/
def parseYMD (cs : List Char) : Option (Nat × Nat × Nat) :=
  match cs with
  | [y1, y2, y3, y4, m1, m2, d1, d2] =>
    match digitsVal [y1, y2, y3, y4], digitsVal [m1, m2], digitsVal [d1, d2] with
    | some y, some m, some d =>
      if 1 ≤ m ∧ m ≤ 12 ∧ 1 ≤ d ∧ d ≤ daysInMonth y m then some (y, m, d) else none
    | _, _, _ => none
  | _ => none

/-- Read `HHMMSS` with Go's range checks: hours 0..23, minutes and
seconds 0..59. -/
def parseHMS (cs : List Char) : Option Nat :=
  match cs with
  | [h1, h2, n1, n2, s1, s2] =>
    match digitsVal [h1, h2], digitsVal [n1, n2], digitsVal [s1, s2] with
    | some h, some n, some s =>
      if h ≤ 23 ∧ n ≤ 59 ∧ s ≤ 59 then some (3600 * h + 60 * n + s) else none
    | _, _, _ => none
  | _ => none

/-- Seconds on the civil (wall) clock denoted by a `20060102T150405`
value, before any zone interpretation. -/
def wallSeconds (cs : List Char) : Option Int :=
  match cs with
  | y1 :: y2 :: y3 :: y4 :: m1 :: m2 :: d1 :: d2 :: 'T' :: hms =>
    match parseYMD [y1, y2, y3, y4, m1, m2, d1, d2], parseHMS hms with
    | some (y, m, d), some t => some (86400 * daysFromCivil y m d + t)
    | _, _ => none
  | _ => none

/-- Go `time.Parse(dateLayout, v)` for layout `20060102`: with no zone
information in the layout the result is midnight UTC of the date. -/
def goParseDate8 (v : String) : Except String Int :=
  match parseYMD v.data with
  | some (y, m, d) => .ok (86400 * daysFromCivil y m d)
  | none => .error "parsing time error"

/-- Go `time.Parse(dateTimeLayoutUTC, v)` for layout `20060102T150405Z`:
the trailing `Z` is a literal, the result is the UTC instant. -/
def goParseUTC (v : String) : Except String Int :=
  match v.data.reverse with
  | 'Z' :: rest =>
    match wallSeconds rest.reverse with
    | some t => .ok t
    | none => .error "parsing time error"
  | _ => .error "parsing time error"

/-- Go `time.ParseInLocation(dateTimeLayoutLocalized, v, loc)`: the wall
clock reading interpreted in `loc`, an instant `offset` earlier than the
same reading in UTC. -/
def goParseLocalized (v : String) (loc : Location) : Except String Int :=
  match wallSeconds v.data with
  | some t => .ok (t - loc.offset)
  | none => .error "parsing time error"

/-- Go `time.ParseInLocation(dateLayout, v, loc)`: midnight of the date
in `loc` (only reachable through the dead `VALUE=DATE` branch). -/
def goParseDate8In (v : String) (loc : Location) : Except String Int :=
  match parseYMD v.data with
  | some (y, m, d) => .ok (86400 * daysFromCivil y m d - loc.offset)
  | none => .error "parsing time error"

/-- Go `strings.HasSuffix`. -/
def goHasSuffix (s suffix : String) : Bool :=
  suffix.data.isSuffixOf s.data

/-- Go `parseDate`.  `tzdb` stands for the external `time.LoadLocation`
lookup (failure falls back to UTC, as in the source).  The source indexes
`tz.Values[0]`; parser-built parameters always carry at least one value,
and the head is taken totally here.  The nested `VALUE=DATE` length-8
check is kept although the enclosing branch already excludes length 8. -/
def parseDate (tzdb : String → Option Location) (p : Property) (l : Location) :
    Except String Int :=
  if goHasSuffix p.Value "Z" then goParseUTC p.Value
  else match mapGet p.Params "TZID" with
  | some tz =>
    let loc := match tzdb (tz.Values.headD "") with
      | some lo => lo
      | none => utcLoc
    goParseLocalized p.Value loc
  | none =>
    if p.Value.data.length = 8 then goParseDate8 p.Value
    else
      let asDate := match mapGet p.Params "VALUE" with
        | some val => val.Values.headD "" == "DATE" && p.Value.data.length == 8
        | none => false
      if asDate then goParseDate8In p.Value l else goParseLocalized p.Value l

/-- Zero-time fallback at `parseDate` call sites: the source discards the
error (`v.StartDate, _ = parseDate(...)`), keeping the zero `time.Time`
that Go `time.Parse` returns alongside an error. -/
def timeOrZero : Except String Int → Int
  | .ok t => t
  | .error _ => goZeroTime

/-- Go `hasProperty`: whether a component has a property of this name. -/
def hasProperty (name : String) (properties : List Property) : Bool :=
  properties.any (fun property => property.Name = name)

/-- The validation error text of `validateCalendar`. -/
def missingPVMsg : String := "missing required property \"prodid or version\""

/-- The mutual-exclusion error text of `validateEvent`. -/
def bothMsg : String := "cannot have both \"DTEND\" and \"DURATION\""

/-- Loop body of Go `validateCalendar`: the four independent `if`
statements over one property, threading the `propertyCount` counter that
PRODID and VERSION share. -/
def vcStep (acc : Calendar × Nat) (property : Property) : Calendar × Nat :=
  let acc := if property.Name = "PRODID"
    then ({ acc.1 with Prodid := property.Value }, acc.2 + 1) else acc
  let acc := if property.Name = "VERSION"
    then ({ acc.1 with Version := property.Value }, acc.2 + 1) else acc
  let acc := if property.Name = "CALSCALE"
    then ({ acc.1 with Calscale := property.Value }, acc.2) else acc
  if property.Name = "METHOD"
    then ({ acc.1 with Method := property.Value }, acc.2) else acc

/-- Go `validateCalendar`: walk the top-level properties, copying the
recognized ones into the named fields, counting PRODID and VERSION
occurrences in one shared counter; reject unless that aggregate counter
is exactly 2. -/
def validateCalendar (c : Calendar) : Except String Calendar :=
  let r := c.Properties.foldl vcStep (c, 0)
  if r.2 ≠ 2 then .error missingPVMsg else .ok r.1

/-- Bump one name in an occurrence-count table (Go `propertyCount[k]++`). -/
def bump (cnt : String → Nat) (k : String) : String → Nat :=
  fun n => if n = k then cnt n + 1 else cnt n

/-- The names counted by `validateEvent`. -/
def countedNames : List String :=
  ["UID", "DTSTAMP", "DTSTART", "DTEND", "DURATION", "SUMMARY", "DESCRIPTION"]

/-- The property loop of Go `validateEvent`: the switch over each
property, filling in event fields, counting occurrences, and rejecting
as soon as DTEND and DURATION coexist (`hasProperty` checks the full
original list, which field updates never touch). -/
def veLoop (tzdb : String → Option Location) (l : Location) :
    List Property → Event → (String → Nat) → Except String (Event × (String → Nat))
  | [], v, cnt => .ok (v, cnt)
  | property :: rest, v, cnt =>
    if property.Name = "UID" then
      veLoop tzdb l rest { v with UID := property.Value } (bump cnt "UID")
    else if property.Name = "DTSTAMP" then
      veLoop tzdb l rest { v with Timestamp := timeOrZero (parseDate tzdb property l) }
        (bump cnt "DTSTAMP")
    else if property.Name = "DTSTART" then
      veLoop tzdb l rest { v with StartDate := timeOrZero (parseDate tzdb property l) }
        (bump cnt "DTSTART")
    else if property.Name = "DTEND" then
      if hasProperty "DURATION" v.Properties then .error bothMsg
      else veLoop tzdb l rest { v with EndDate := timeOrZero (parseDate tzdb property l) }
        (bump cnt "DTEND")
    else if property.Name = "DURATION" then
      if hasProperty "DTEND" v.Properties then .error bothMsg
      else veLoop tzdb l rest v (bump cnt "DURATION")
    else if property.Name = "SUMMARY" then
      veLoop tzdb l rest { v with Summary := property.Value } (bump cnt "SUMMARY")
    else if property.Name = "DESCRIPTION" then
      veLoop tzdb l rest { v with Description := property.Value } (bump cnt "DESCRIPTION")
    else veLoop tzdb l rest v cnt

/-- Go `validateEvent`.  Go iterates the count map in unspecified order;
only whether some counted name repeats is deterministic, so the check
walks the seven names in a fixed order (the error text then names the
first such, where Go names an arbitrary one). -/
def validateEvent (tzdb : String → Option Location) (l : Location) (method : String)
    (v : Event) : Except String Event :=
  match veLoop tzdb l v.Properties v (fun _ => 0) with
  | .error e => .error e
  | .ok (v1, cnt) =>
    if method = "" ∧ v1.Timestamp = goZeroTime then
      .error "missing required property \"DTSTAMP\""
    else if v1.UID = "" then .error "missing required property \"UID\""
    else if v1.StartDate = goZeroTime then .error "missing required property \"DTSTART\""
    else match countedNames.find? (fun k => 1 < cnt k) with
      | some k => .error ("\"" ++ k ++ "\" property occurs more than once")
      | none =>
        if hasProperty "DTEND" v.Properties then .ok v1
        else .ok { v1 with EndDate := v1.StartDate + 86400 }

/-- Go `validateAlarm`.  Only ACTION and TRIGGER are counted; a name with
no occurrence has no key in the Go count map, so the source's `val < 1`
branch can never fire and absence is not rejected.  As in
`validateEvent`, the duplicate check is made deterministic by fixing the
order. -/
def validateAlarm (a : Alarm) : Except String Alarm :=
  let r := a.Properties.foldl (fun (acc : Alarm × Nat × Nat) property =>
    if property.Name = "ACTION" then
      ({ acc.1 with Action := property.Value }, acc.2.1 + 1, acc.2.2)
    else if property.Name = "TRIGGER" then
      ({ acc.1 with Trigger := property.Value }, acc.2.1, acc.2.2 + 1)
    else acc) (a, 0, 0)
  if 1 < r.2.1 then .error "\"ACTION\" property occurs more than once"
  else if 1 < r.2.2 then .error "\"TRIGGER\" property occurs more than once"
  else .ok r.1

/-- Outcome of a parser routine: the threaded value, the `errorDone`
sentinel carrying the finished calendar, a returned error, a Go runtime
panic (nil-pointer dereference), or fuel exhaustion (`spin`, unreachable
for the fuel supplied below). -/
inductive PR (α : Type) where
  | ok : α → PR α
  | done : Calendar → PR α
  | err : String → PR α
  | panicked : PR α
  | spin : PR α
deriving DecidableEq, Repr

/-- Whether the outcome is a returned error. -/
def PR.isErr {α : Type} : PR α → Bool
  | .err _ => true
  | _ => false

/-- Whether the outcome is a returned value. -/
def PR.isOk {α : Type} : PR α → Bool
  | .ok _ => true
  | _ => false

/-- Parser state: the remaining token stream (the parser's one-token
pushback is a cons back onto it; a read past the end yields the zero
item, as a receive on the closed channel does), the scope counter and
the in-progress calendar, event and alarm (`none` models a nil
pointer). -/
structure PState where
  ts : List item
  scope : Int
  c : Calendar
  v : Option Event
  a : Option Alarm
deriving DecidableEq, Repr

/-- Go `p.next()`: pop the next token, or the zero item at the end. -/
def pnext : List item → item × List item
  | [] => (zeroItem, [])
  | t :: ts => (t, ts)

/-- Go item `String()` method, for parser error messages.  The `%q` verb
is modelled as plain quoting (the values reaching it contain no
characters `strconv` would escape). -/
def itemString (i : item) : String :=
  if i.typ = .itemEOF then "EOF"
  else if i.typ = .itemError then i.val
  else if itemType.itemKeyword.idx < i.typ.idx then "<" ++ i.val ++ ">"
  else "\"" ++ i.val ++ "\""

/-- The `CRLF` check following every delimiter branch of Go
`scanDelimiter` (inlined four times in the source). -/
def expectLineEnd (st : PState) : PR PState :=
  let (i, ts) := pnext st.ts
  if i.typ = .itemLineEnd then .ok { st with ts := ts }
  else .err ("found " ++ itemString i ++ ", expected CRLF")

/-- Go `scanDelimiter`: switch scope and validate the closing component.
`endVAlarm` checks no scope at all and `endVEvent` only guards against
deeper scopes, so either can reach validation with a nil alarm/event
(`panicked`).  Non-delimiter kinds fall through the switch with no
error, as in the source. -/
def scanDelimiter (tzdb : String → Option Location) (loc : Location) (delimiter : item)
    (st : PState) : PR PState :=
  match delimiter.typ with
  | .itemBeginVEvent =>
    match validateCalendar st.c with
    | .error e => .err e
    | .ok c' => expectLineEnd { st with c := c', v := some NewEvent, scope := st.scope + 1 }
  | .itemEndVEvent =>
    if 1 < st.scope then .err ("found " ++ itemString delimiter ++ ", expected END:VALARM")
    else match st.v with
    | none => .panicked
    | some v =>
      match validateEvent tzdb loc st.c.Method v with
      | .error e => .err e
      | .ok v' =>
        let c' : Calendar := { st.c with Events := st.c.Events ++ [v'] }
        expectLineEnd { st with c := c', v := some v', scope := st.scope - 1 }
  | .itemBeginVAlarm =>
    expectLineEnd { st with a := some NewAlarm, scope := st.scope + 1 }
  | .itemEndVAlarm =>
    match st.a with
    | none => .panicked
    | some a =>
      match validateAlarm a with
      | .error e => .err e
      | .ok a' =>
        match st.v with
        | none => .panicked
        | some v =>
          let v' : Event := { v with Alarms := v.Alarms ++ [a'] }
          expectLineEnd { st with v := some v', a := some a', scope := st.scope - 1 }
  | .itemEndVCalendar =>
    if 0 < st.scope then .err ("found " ++ itemString delimiter ++ ", expected END:VEVENT")
    else .done st.c
  | _ => .ok st

/-- Go `scanValues`: one or more comma-separated parameter values; a
non-comma after a value is pushed back.  Fuel bounds the loop; each
iteration consumes two real tokens. -/
def scanValues : Nat → Param → List item → PR (Param × List item)
  | 0, _, _ => .spin
  | fuel + 1, param, ts =>
    let (i, ts1) := pnext ts
    if i.typ ≠ .itemParamValue then .err ("found " ++ itemString i ++ ", expected a parameter value")
    else
      let param := { param with Values := param.Values ++ [i.val] }
      let (j, ts2) := pnext ts1
      if j.typ ≠ .itemComma then .ok (param, j :: ts2)
      else scanValues fuel param ts2

/-- Go `scanParams`: zero or more `;name=value,...` groups; a non-semicolon
is pushed back and ends the list.  The source stores each group under
`item.val` where `item` is, by then, the equals-sign token: every group
lands under the key `"="` rather than the parameter's name. -/
def scanParams : Nat → Property → List item → PR (Property × List item)
  | 0, _, _ => .spin
  | fuel + 1, prop, ts =>
    let (i, ts1) := pnext ts
    if i.typ ≠ .itemSemiColon then .ok (prop, i :: ts1)
    else
      let (n, ts2) := pnext ts1
      if n.typ ≠ .itemParamName then .err ("found " ++ itemString n ++ ", expected a parameter name")
      else
        let (e, ts3) := pnext ts2
        if e.typ ≠ .itemEqual then .err ("found " ++ itemString e ++ ", expected =")
        else
          match scanValues fuel NewParam ts3 with
          | .ok (param, ts4) => scanParams fuel { prop with Params := mapInsert prop.Params e.val param } ts4
          | .err m => .err m
          | .done c => .done c
          | .panicked => .panicked
          | .spin => .spin

/-- Go `scanContentLine`: delimiters are handled and the scan recurses;
otherwise a property is assembled (`name [;p=v,...]* : value CRLF`) and
appended to the entity of the current scope.  A scope of 1 or 2 with no
live event/alarm dereferences a nil pointer in the source (`panicked`);
a scope outside 0..2 matches no case of the Go switch and the property
is dropped. -/
def scanContentLine (tzdb : String → Option Location) (loc : Location) :
    Nat → PState → PR PState
  | 0, _ => .spin
  | fuel + 1, st =>
    let (name, ts1) := pnext st.ts
    let st1 : PState := { st with ts := ts1 }
    if itemType.itemKeyword.idx < name.typ.idx then
      match scanDelimiter tzdb loc name st1 with
      | .ok st2 => scanContentLine tzdb loc fuel st2
      | .done c => .done c
      | .err e => .err e
      | .panicked => .panicked
      | .spin => .spin
    else if ¬ isItemComponent name then
      .err ("found " ++ itemString name ++ ", expected a \"component\" token")
    else
      match scanParams fuel { NewProperty with Name := name.val } ts1 with
      | .done c => .done c
      | .err e => .err e
      | .panicked => .panicked
      | .spin => .spin
      | .ok (prop, ts2) =>
        let (ci, ts3) := pnext ts2
        if ci.typ ≠ .itemColon then .err ("found " ++ itemString ci ++ ", expected \":\"")
        else
          let (vi, ts4) := pnext ts3
          if vi.typ ≠ .itemValue then .err ("found " ++ itemString vi ++ ", expected a value")
          else
            let prop := { prop with Value := vi.val }
            let (li, ts5) := pnext ts4
            if li.typ ≠ .itemLineEnd then .err ("found " ++ itemString li ++ ", expected CRLF")
            else
              let st2 : PState := { st1 with ts := ts5 }
              if st2.scope = 0 then
                .ok { st2 with c := { st2.c with Properties := st2.c.Properties ++ [prop] } }
              else if st2.scope = 1 then
                match st2.v with
                | none => .panicked
                | some v => .ok { st2 with v := some { v with Properties := v.Properties ++ [prop] } }
              else if st2.scope = 2 then
                match st2.a with
                | none => .panicked
                | some a => .ok { st2 with a := some { a with Properties := a.Properties ++ [prop] } }
              else .ok st2

/-- The loop of Go `parse`: scan content lines until `errorDone`. -/
def parseLoop (tzdb : String → Option Location) (loc : Location) :
    Nat → PState → PR Calendar
  | 0, _ => .spin
  | fuel + 1, st =>
    match scanContentLine tzdb loc fuel st with
    | .ok st' => parseLoop tzdb loc fuel st'
    | .done c => .ok c
    | .err e => .err e
    | .panicked => .panicked
    | .spin => .spin

/-- Go `parse`: demand `BEGIN:VCALENDAR` and a line end, then loop.  The
fuel is enough for any stream: each loop iteration and each inner
recursion consumes at least one token of the finite stream. -/
def parseTokens (tzdb : String → Option Location) (loc : Location) (ts : List item) :
    PR Calendar :=
  let (i1, ts1) := pnext ts
  if i1.typ ≠ .itemBeginVCalendar then .err ("found " ++ itemString i1 ++ ", expected BEGIN:VCALENDAR")
  else
    let (i2, ts2) := pnext ts1
    if i2.typ ≠ .itemLineEnd then .err ("found " ++ itemString i2 ++ ", expected CRLF")
    else parseLoop tzdb loc (2 * ts2.length + 8) { ts := ts2, scope := 0, c := NewCalendar, v := none, a := none }

/-- Go `Parse` for an in-memory document: unfold, lex, parse.  The token
list is materialized up front; this coincides with the rendezvous
hand-off whenever the lexer halts normally, which it does on every
document this development applies `ParseStr` to. -/
def ParseStr (tzdb : String → Option Location) (loc : Location) (s : String) : PR Calendar :=
  parseTokens tzdb loc (lexString (unfold s)).1

/-- The no-database timezone lookup: every `time.LoadLocation` fails and
`parseDate` falls back to UTC, the tolerated-lookup-failure path. -/
def noTZ : String → Option Location := fun _ => none

/-- Decidable equality for `Except`, so concrete runs of the fallible
functions can be checked by evaluation. -/
instance {e a : Type} [DecidableEq e] [DecidableEq a] : DecidableEq (Except e a) := fun x y =>
  match x, y with
  | .ok u, .ok v =>
    if h : u = v then isTrue (by rw [h]) else isFalse (fun he => h (Except.ok.inj he))
  | .error u, .error v =>
    if h : u = v then isTrue (by rw [h]) else isFalse (fun he => h (Except.error.inj he))
  | .ok _, .error _ => isFalse (fun he => Except.noConfusion he)
  | .error _, .ok _ => isFalse (fun he => Except.noConfusion he)

/-- Aggregate number of PRODID and VERSION properties in a list: the
quantity the shared `propertyCount` counter of `validateCalendar`
computes. -/
def countPV (props : List Property) : Nat :=
  (props.filter (fun p => p.Name = "PRODID" ∨ p.Name = "VERSION")).length

theorem vcStep_snd (acc : Calendar × Nat) (p : Property) :
    (vcStep acc p).2 = acc.2 + (if p.Name = "PRODID" ∨ p.Name = "VERSION" then 1 else 0) := by
  unfold vcStep
  by_cases h1 : p.Name = "PRODID"
  · have h2 : ¬ p.Name = "VERSION" := by simp [h1]
    have h3 : ¬ p.Name = "CALSCALE" := by simp [h1]
    have h4 : ¬ p.Name = "METHOD" := by simp [h1]
    simp [h1, h2, h3, h4]
  · by_cases h2 : p.Name = "VERSION"
    · have h3 : ¬ p.Name = "CALSCALE" := by simp [h2]
      have h4 : ¬ p.Name = "METHOD" := by simp [h2]
      simp [h1, h2, h3, h4]
    · by_cases h3 : p.Name = "CALSCALE" <;> by_cases h4 : p.Name = "METHOD" <;>
        simp [h1, h2, h3, h4]

theorem countPV_cons (p : Property) (rest : List Property) :
    countPV (p :: rest) = (if p.Name = "PRODID" ∨ p.Name = "VERSION" then 1 else 0) + countPV rest := by
  simp only [countPV, List.filter_cons]
  split
  · rename_i h
    rw [if_pos (by simpa using h)]
    simp [Nat.add_comm]
  · rename_i h
    rw [if_neg (by simpa using h)]
    simp

theorem vcFold_count (props : List Property) :
    ∀ acc : Calendar × Nat, (props.foldl vcStep acc).2 = acc.2 + countPV props := by
  induction props with
  | nil => intro acc; simp [countPV]
  | cons p rest ih =>
    intro acc
    rw [List.foldl_cons, ih, vcStep_snd, countPV_cons]
    omega

theorem validateCalendar_error_count (c : Calendar) (h : countPV c.Properties ≠ 2) :
    validateCalendar c = .error missingPVMsg := by
  unfold validateCalendar
  rw [if_pos (by rw [vcFold_count]; simpa using h)]

theorem validateCalendar_ok_count (c : Calendar) :
    (∃ c', validateCalendar c = .ok c') ↔ countPV c.Properties = 2 := by
  unfold validateCalendar
  constructor
  · intro ⟨c', hc⟩
    by_contra h
    rw [if_pos (by rw [vcFold_count]; simpa using h)] at hc
    cases hc
  · intro h
    rw [if_neg (by rw [vcFold_count]; simpa using h)]
    exact ⟨_, rfl⟩

theorem hasProperty_exists {name : String} {props : List Property}
    (h : hasProperty name props = true) : ∃ p ∈ props, p.Name = name := by
  simpa [hasProperty, List.any_eq_true] using h

theorem veLoop_both (tzdb : String → Option Location) (l : Location) :
    ∀ (rest : List Property) (v : Event) (cnt : String → Nat),
    hasProperty "DTEND" v.Properties = true →
    hasProperty "DURATION" v.Properties = true →
    (∃ p ∈ rest, p.Name = "DTEND" ∨ p.Name = "DURATION") →
    veLoop tzdb l rest v cnt = .error bothMsg := by
  intro rest
  induction rest with
  | nil =>
    intro v cnt _ _ hex
    simp at hex
  | cons p rest ih =>
    intro v cnt hE hD hex
    have skip : p.Name ≠ "DTEND" → p.Name ≠ "DURATION" →
        ∃ q ∈ rest, q.Name = "DTEND" ∨ q.Name = "DURATION" := by
      intro hne hnd
      rcases hex with ⟨q, hq, hqn⟩
      rcases List.mem_cons.mp hq with rfl | hq'
      · rcases hqn with h | h
        · exact absurd h hne
        · exact absurd h hnd
      · exact ⟨q, hq', hqn⟩
    by_cases h4 : p.Name = "DTEND"
    · rw [show veLoop tzdb l (p :: rest) v cnt =
          (if hasProperty "DURATION" v.Properties then Except.error bothMsg
           else veLoop tzdb l rest { v with EndDate := timeOrZero (parseDate tzdb p l) }
             (bump cnt "DTEND")) from by simp [veLoop, h4]]
      rw [if_pos hD]
    · by_cases h5 : p.Name = "DURATION"
      · rw [show veLoop tzdb l (p :: rest) v cnt =
            (if hasProperty "DTEND" v.Properties then Except.error bothMsg
             else veLoop tzdb l rest v (bump cnt "DURATION")) from by simp [veLoop, h4, h5]]
        rw [if_pos hE]
      · have hex' := skip h4 h5
        by_cases h1 : p.Name = "UID"
        · rw [show veLoop tzdb l (p :: rest) v cnt =
              veLoop tzdb l rest { v with UID := p.Value } (bump cnt "UID") from by
                simp [veLoop, h1]]
          exact ih _ _ hE hD hex'
        · by_cases h2 : p.Name = "DTSTAMP"
          · rw [show veLoop tzdb l (p :: rest) v cnt =
                veLoop tzdb l rest { v with Timestamp := timeOrZero (parseDate tzdb p l) }
                  (bump cnt "DTSTAMP") from by simp [veLoop, h1, h2]]
            exact ih _ _ hE hD hex'
          · by_cases h3 : p.Name = "DTSTART"
            · rw [show veLoop tzdb l (p :: rest) v cnt =
                  veLoop tzdb l rest { v with StartDate := timeOrZero (parseDate tzdb p l) }
                    (bump cnt "DTSTART") from by simp [veLoop, h1, h2, h3]]
              exact ih _ _ hE hD hex'
            · by_cases h6 : p.Name = "SUMMARY"
              · rw [show veLoop tzdb l (p :: rest) v cnt =
                    veLoop tzdb l rest { v with Summary := p.Value } (bump cnt "SUMMARY") from by
                      simp [veLoop, h1, h2, h3, h4, h5, h6]]
                exact ih _ _ hE hD hex'
              · by_cases h7 : p.Name = "DESCRIPTION"
                · rw [show veLoop tzdb l (p :: rest) v cnt =
                      veLoop tzdb l rest { v with Description := p.Value }
                        (bump cnt "DESCRIPTION") from by simp [veLoop, h1, h2, h3, h4, h5, h6, h7]]
                  exact ih _ _ hE hD hex'
                · rw [show veLoop tzdb l (p :: rest) v cnt = veLoop tzdb l rest v cnt from by
                      simp [veLoop, h1, h2, h3, h4, h5, h6, h7]]
                  exact ih _ _ hE hD hex'

/-- A location one hour east of UTC, used as a concrete caller-supplied
default location. -/
def parisLoc : Location := ⟨3600⟩

/-- A bare eight-character date property with no parameters. -/
def dtstart8 : Property := ⟨"DTSTART", "20230615", []⟩

/-- Midnight of a civil date in a location: the reading the claim under
test ascribes to bare dates (stated from the spec's words, for comparison
with what the code computes). -/
def localMidnight (loc : Location) (y m d : Int) : Int :=
  86400 * daysFromCivil y m d - loc.offset

/-- C3: the claim says the first error token ends the token stream.  On
`"BEGIN:VCALENDARxx\r\n"` the lexer emits an error token at position 15
(no CRLF after the delimiter) and then keeps going: a line-end token, a
component token and a second error token follow, because `lexNewLine`
discards the terminating state `errorf` returns. -/
theorem lexer_tokens_after_error :
    (lexString "BEGIN:VCALENDARxx\r\n").1.map item.typ =
      [.itemBeginVCalendar, .itemError, .itemLineEnd, .itemComponent, .itemError]
    ∧ (lexString "BEGIN:VCALENDARxx\r\n").2 = .halted := by decide

/-- C10: the claim says the NewLine state never reads past the end of the
input.  On `"BEGIN:VCALENDARx"` (one byte left after the delimiter, no
terminator) the error path still advances the position by the terminator
length, to 17 on a 16-character input, and the emit slice
`input[start:pos]` is out of range: the run panics instead of halting. -/
theorem lexer_slice_out_of_range :
    (lexString "BEGIN:VCALENDARx").2 = .panicked
    ∧ (lexString "BEGIN:VCALENDARx").1.map item.typ = [.itemBeginVCalendar, .itemError] := by
  decide

/-- C6 (counterexample): unfolding removes the whole `CRLF+space`
sequence, so the folded example yields `"SUMMARY:HelloWorld"`, not
`"SUMMARY:Hello World"`; and unfolding is not idempotent, since removing
an occurrence can create a fresh one. -/
theorem unfold_example_counter :
    unfold "SUMMARY:Hello\r\n World" ≠ "SUMMARY:Hello World"
    ∧ unfold (unfold "\r\r\n \n ") ≠ unfold "\r\r\n \n " := by decide

/-- C6 (amended): unfolding is order-preserving (the result is a sublist
of the input); unfolding the example yields `"SUMMARY:HelloWorld"`, and
lexing that text yields exactly one property-value token, with value
`"HelloWorld"`. -/
theorem unfold_order_preserving_example :
    (∀ s : String, (unfold s).data.Sublist s.data)
    ∧ unfold "SUMMARY:Hello\r\n World" = "SUMMARY:HelloWorld"
    ∧ (lexString (unfold "SUMMARY:Hello\r\n World")).1 =
      [⟨.itemComponent, 0, "SUMMARY"⟩, ⟨.itemColon, 7, ":"⟩, ⟨.itemValue, 8, "HelloWorld"⟩] := by
  refine ⟨?_, by decide, by decide⟩
  intro s
  show (unfoldChars s.data).Sublist s.data
  generalize s.data = l
  induction l using unfoldChars.induct with
  | case1 rest ih =>
    exact ih.trans ((List.sublist_cons_self _ _).trans
      ((List.sublist_cons_self _ _).trans (List.sublist_cons_self _ _)))
  | case2 c rest h ih =>
    simp only [unfoldChars]
    exact ih.cons₂ c
  | case3 => rfl

/-- C5 (counterexample): an eight-character date value with no `Z` suffix
and no TZID parameter goes through `time.Parse`, not `ParseInLocation`:
with a caller location one hour east of UTC, `"20230615"` parses to
midnight UTC (1686787200), not to midnight in that location
(1686783600). -/
theorem bare_date_not_local :
    parseDate noTZ dtstart8 parisLoc = .ok 1686787200
    ∧ localMidnight parisLoc 2023 6 15 = 1686783600
    ∧ parseDate noTZ dtstart8 parisLoc ≠ .ok (localMidnight parisLoc 2023 6 15) := by decide

/-- C5 (amended): for every property whose value is exactly eight
characters, does not end in `Z`, and has no TZID parameter, `parseDate`
returns the `time.Parse` reading of the bare date — midnight UTC — and
the result does not depend on the caller-supplied location. -/
theorem bare_date_parses_utc (tzdb : String → Option Location) (p : Property)
    (loc loc' : Location)
    (hz : goHasSuffix p.Value "Z" = false)
    (ht : mapGet p.Params "TZID" = none)
    (h8 : p.Value.data.length = 8) :
    parseDate tzdb p loc = goParseDate8 p.Value
    ∧ parseDate tzdb p loc' = parseDate tzdb p loc := by
  unfold parseDate
  simp [hz, ht, h8]

/-- Witness for C5 (amended) at the concrete bare date property. -/
theorem bare_date_parses_utc_witness :
    (goHasSuffix dtstart8.Value "Z" = false ∧ mapGet dtstart8.Params "TZID" = none
      ∧ dtstart8.Value.data.length = 8)
    ∧ parseDate noTZ dtstart8 parisLoc = goParseDate8 dtstart8.Value
    ∧ parseDate noTZ dtstart8 utcLoc = parseDate noTZ dtstart8 parisLoc :=
  ⟨⟨by decide, by decide, by decide⟩,
    (bare_date_parses_utc noTZ dtstart8 parisLoc utcLoc (by decide) (by decide) (by decide)).1,
    (bare_date_parses_utc noTZ dtstart8 parisLoc utcLoc (by decide) (by decide) (by decide)).2⟩

/-- The minimal document of the spec's first testable property. -/
def minimalDoc : String := "BEGIN:VCALENDAR\r\nPRODID:-\r\nVERSION:2.0\r\nEND:VCALENDAR\r\n"

/-- What `Parse` actually returns on `minimalDoc`: the two properties are
accumulated but never copied into the `Prodid`/`Version` fields, because
calendar validation only runs when a `BEGIN:VEVENT` is reached. -/
def minimalCal : Calendar :=
  { Prodid := "", Version := "", Calscale := "GREGORIAN", Method := "",
    Properties := [⟨"PRODID", "-", []⟩, ⟨"VERSION", "2.0", []⟩], Events := [] }

/-- C2 (counterexample): on the minimal document `Parse` succeeds, but the
returned calendar has empty `Prodid`/`Version` fields and a non-empty
top-level property sequence, contradicting the claimed result. -/
theorem minimal_doc_fields_counter :
    ParseStr noTZ utcLoc minimalDoc = .ok minimalCal
    ∧ ¬(minimalCal.Prodid = "-" ∧ minimalCal.Version = "2.0"
        ∧ minimalCal.Properties = ([] : List Property)) := by decide

/-- C2 (amended): on the minimal document `Parse` succeeds for every
caller-supplied location, returning empty Events, the two parsed
properties (in order, with no parameters) in the Properties sequence,
and empty `Prodid`/`Version` fields. -/
theorem minimal_doc_parses (loc : Location) :
    ParseStr noTZ loc minimalDoc = .ok minimalCal := rfl

/-- A document with no PRODID, no VERSION and no VEVENT block. -/
def noEventDoc : String := "BEGIN:VCALENDAR\r\nEND:VCALENDAR\r\n"

/-- A document missing PRODID (VERSION appears twice) that contains a
valid event. -/
def versionTwiceDoc : String :=
  "BEGIN:VCALENDAR\r\nVERSION:2.0\r\nVERSION:2.0\r\nBEGIN:VEVENT\r\nUID:a\r\n" ++
  "DTSTAMP:20230615T120000Z\r\nDTSTART:20230615\r\nEND:VEVENT\r\nEND:VCALENDAR\r\n"

/-- C1 (counterexample): a document missing both PRODID and VERSION with
no VEVENT block parses successfully (calendar validation never runs),
and a document missing PRODID whose two VERSION properties make the
aggregate counter reach 2 parses successfully even with an event. -/
theorem missing_pv_parses_counter :
    ParseStr noTZ utcLoc noEventDoc = .ok NewCalendar
    ∧ (ParseStr noTZ utcLoc versionTwiceDoc).isOk = true := by decide

/-- C1 (amended): calendar validation runs only when a `BEGIN:VEVENT`
delimiter is handled; at that point, if the aggregate count of PRODID
and VERSION properties accumulated so far differs from 2, the parser
returns the validation error — as on the concrete document opening an
event with no calendar properties at all. -/
theorem missing_pv_rejected_at_event :
    (∀ (tzdb : String → Option Location) (loc : Location) (delimiter : item) (st : PState),
      delimiter.typ = .itemBeginVEvent → countPV st.c.Properties ≠ 2 →
      scanDelimiter tzdb loc delimiter st = .err missingPVMsg)
    ∧ ParseStr noTZ utcLoc "BEGIN:VCALENDAR\r\nBEGIN:VEVENT\r\nEND:VCALENDAR\r\n" =
      .err missingPVMsg := by
  constructor
  · intro tzdb loc delimiter st hd hc
    unfold scanDelimiter
    rw [hd, validateCalendar_error_count st.c hc]
  · decide

/-- An initial parser state with an empty calendar. -/
def emptyPState : PState := { ts := [], scope := 0, c := NewCalendar, v := none, a := none }

/-- A `BEGIN:VEVENT` delimiter token. -/
def beginVEventItem : item := ⟨.itemBeginVEvent, 0, "BEGIN:VEVENT"⟩

/-- Witness for C1 (amended) at a concrete state with zero calendar
properties. -/
theorem missing_pv_rejected_at_event_witness :
    countPV emptyPState.c.Properties ≠ 2
    ∧ scanDelimiter noTZ utcLoc beginVEventItem emptyPState = .err missingPVMsg :=
  ⟨by decide,
    missing_pv_rejected_at_event.1 noTZ utcLoc beginVEventItem emptyPState rfl (by decide)⟩

/-- A document in which `END:VALARM` arrives while a VEVENT, but no
VALARM, is open. -/
def valarmMismatchDoc : String :=
  "BEGIN:VCALENDAR\r\nPRODID:-\r\nVERSION:2.0\r\nBEGIN:VEVENT\r\nUID:abc\r\nEND:VALARM\r\n"

/-- C4: the claim says every mismatched END delimiter yields a structural
error.  The named token stream does fail with a structural error (it does
not even begin with `BEGIN:VCALENDAR`), but an `END:VALARM` that arrives
with an event open and no alarm ever created reaches `validateAlarm`
through a nil `*Alarm` — `scanDelimiter` has no scope check on that case —
and the parser panics instead of returning an error. -/
theorem mismatched_end_panics :
    ParseStr noTZ utcLoc valarmMismatchDoc = .panicked
    ∧ (ParseStr noTZ utcLoc "BEGIN:VEVENT\r\nUID:abc\r\nEND:VALARM\r\n").isErr = true := by
  decide

/-- A calendar whose properties are two PRODIDs and no VERSION. -/
def twoProdidCal : Calendar :=
  { NewCalendar with Properties := [⟨"PRODID", "a", []⟩, ⟨"PRODID", "b", []⟩] }

/-- The accepted result: both PRODID values were folded in (last wins)
and VERSION stays empty. -/
def twoProdidRes : Calendar :=
  { Prodid := "b", Version := "", Calscale := "GREGORIAN", Method := "",
    Properties := [⟨"PRODID", "a", []⟩, ⟨"PRODID", "b", []⟩], Events := [] }

/-- C7 (counterexample): the claim equates acceptance with PRODID and
VERSION each appearing exactly once.  A calendar carrying two PRODID
properties and no VERSION is accepted — the shared counter reaches 2 —
although VERSION appears zero times and PRODID twice. -/
theorem two_prodid_accepted :
    validateCalendar twoProdidCal = .ok twoProdidRes
    ∧ (twoProdidCal.Properties.filter (fun p => p.Name = "VERSION")).length = 0
    ∧ (twoProdidCal.Properties.filter (fun p => p.Name = "PRODID")).length ≠ 1 := by decide

/-- C7 (amended): calendar validation accepts exactly when the aggregate
number of PRODID and VERSION properties equals 2 — each-exactly-once is
sufficient but not necessary; CALSCALE and METHOD never influence
acceptance (they are absent from the criterion). -/
theorem validateCalendar_accepts_iff (c : Calendar) :
    (∃ c', validateCalendar c = .ok c') ↔ countPV c.Properties = 2 :=
  validateCalendar_ok_count c

/-- C8: an event whose properties contain both a DTEND and a DURATION
property fails validation with the mutual-exclusion error, in either
order: whichever of the two the property loop meets first, `hasProperty`
scans the full list and finds the other. -/
theorem dtend_duration_exclusive (tzdb : String → Option Location) (l : Location)
    (method : String) (v : Event)
    (hE : hasProperty "DTEND" v.Properties = true)
    (hD : hasProperty "DURATION" v.Properties = true) :
    validateEvent tzdb l method v = .error bothMsg := by
  unfold validateEvent
  rw [veLoop_both tzdb l v.Properties v _ hE hD ?ex]
  case ex =>
    obtain ⟨p, hp, hpn⟩ := hasProperty_exists hE
    exact ⟨p, hp, Or.inl hpn⟩

/-- Events with DTEND before DURATION and the reverse, for the witness. -/
def bothEv1 : Event :=
  { NewEvent with Properties :=
      [⟨"UID", "u", []⟩, ⟨"DTEND", "20230615", []⟩, ⟨"DURATION", "PT1H", []⟩] }

def bothEv2 : Event :=
  { NewEvent with Properties := [⟨"DURATION", "PT1H", []⟩, ⟨"DTEND", "20230615", []⟩] }

/-- Witness for C8 at concrete events, in both property orders. -/
theorem dtend_duration_exclusive_witness :
    (hasProperty "DTEND" bothEv1.Properties = true
      ∧ hasProperty "DURATION" bothEv1.Properties = true
      ∧ validateEvent noTZ utcLoc "" bothEv1 = .error bothMsg)
    ∧ validateEvent noTZ utcLoc "" bothEv2 = .error bothMsg :=
  ⟨⟨by decide, by decide,
      dtend_duration_exclusive noTZ utcLoc "" bothEv1 (by decide) (by decide)⟩,
    dtend_duration_exclusive noTZ utcLoc "" bothEv2 (by decide) (by decide)⟩

/-- C9: an event that passes validation with no DTEND property has its
end date defaulted to exactly 24 hours (86400 seconds) after its start
date. -/
theorem no_dtend_defaults_24h (tzdb : String → Option Location) (l : Location)
    (method : String) (v v' : Event)
    (hok : validateEvent tzdb l method v = .ok v')
    (hnd : hasProperty "DTEND" v.Properties = false) :
    v'.EndDate = v'.StartDate + 86400 := by
  unfold validateEvent at hok
  cases hloop : veLoop tzdb l v.Properties v (fun _ => 0) with
  | error e => rw [hloop] at hok; cases hok
  | ok pr =>
    obtain ⟨v1, cnt⟩ := pr
    rw [hloop] at hok
    simp only at hok
    split at hok
    · cases hok
    · split at hok
      · cases hok
      · split at hok
        · cases hok
        · split at hok
          · cases hok
          · rw [if_neg (by simp [hnd])] at hok
            cases hok
            rfl

/-- The event of the C9 witness, and the validated result. -/
def defEv : Event :=
  { NewEvent with Properties :=
      [⟨"UID", "abc", []⟩, ⟨"DTSTAMP", "20230615T120000Z", []⟩, ⟨"DTSTART", "20230615", []⟩] }

def defEvOut : Event :=
  { UID := "abc", Timestamp := 1686830400, StartDate := 1686787200, EndDate := 1686873600,
    Summary := "", Description := "", Properties := defEv.Properties, Alarms := [] }

/-- Witness for C9 at a concrete event with no DTEND. -/
theorem no_dtend_defaults_24h_witness :
    (validateEvent noTZ utcLoc "" defEv = .ok defEvOut
      ∧ hasProperty "DTEND" defEv.Properties = false)
    ∧ defEvOut.EndDate = defEvOut.StartDate + 86400 :=
  ⟨⟨by decide, by decide⟩,
    no_dtend_defaults_24h noTZ utcLoc "" defEv defEvOut (by decide) (by decide)⟩

end ICal
